import Mathlib

/-!
# Verification of the edua-ai school-management application

Shallow embedding of the data model and operations of the edua-ai repository:
the Postgres schema with its constraints and row-level-security (RLS) policies
(`supabase/migrations`), the two serverless handlers in
`supabase/functions/send-notification-email/index.ts` (the notification stub and
the ai-grading proxy), and the client-side operations `submitAttendance`
(`src/components/AttendanceTracker.tsx`), `handleJoinClass`
(`src/pages/StudentDashboard.tsx`) and `fetchAttendanceStats`
(`TeacherAttendanceStats`).

Identifiers (UUIDs) are modelled as `Nat`, dates as `Nat`, and tables as lists
of rows in insertion order.  Machine integers do not overflow in any of the
modelled code paths, so `Nat`/`Int`/`ℚ` are used directly.
-/

namespace Edua

/-! ## AI grading: grade extraction

The ai-grading handler extracts a grade from the free-text reply of the model with

  `aiResponse.match(/\b(\d{1,3})\b/)` and
  `gradeMatch ? Math.min(parseInt(gradeMatch[1]), 100) : 75`.

`isWordChar` is the JavaScript regex word-character class `\w = [A-Za-z0-9_]`;
`matchDigitsBound` is the greedy-with-backtracking match of `\d{1,3}\b` at a
fixed position; `scanMatch` scans left to right for the first position where
`\b\d{1,3}\b` matches, tracking whether the previous character was a word
character (so that `\b` holds exactly when it is not). -/

def isWordChar (c : Char) : Bool :=
  (('a' ≤ c) && (c ≤ 'z')) || (('A' ≤ c) && (c ≤ 'Z')) || c.isDigit || (c == '_')

/-- Word boundary `\b` at the position just before the remaining input `l`, given that the
character before that position was a digit (a word character): the boundary
holds iff the input ends or continues with a non-word character. -/
def boundaryAfter : List Char → Bool
  | [] => true
  | c :: _ => ! isWordChar c

/-- Greedy match of `\d{1,3}\b` at the start of `l`, with backtracking on the
repetition count, returning the captured digit characters. -/
def matchDigitsBound : List Char → Option (List Char)
  | [] => none
  | c1 :: r1 =>
    if c1.isDigit then
      match r1 with
      | [] => some [c1]
      | c2 :: r2 =>
        if c2.isDigit then
          match r2 with
          | [] => some [c1, c2]
          | c3 :: r3 =>
            if c3.isDigit then
              if boundaryAfter r3 then some [c1, c2, c3] else none
            else
              if ! isWordChar c3 then some [c1, c2] else none
        else
          if ! isWordChar c2 then some [c1] else none
    else none

/-- Scan for the first match of `\b\d{1,3}\b`: the regex engine tries each
start position left to right; `prevWord` records whether the character before
the current position is a word character (initially false, as at the start of
the string `\b` holds before a word character). -/
def scanMatch : Bool → List Char → Option (List Char)
  | _, [] => none
  | prevWord, c :: rest =>
    if prevWord then scanMatch (isWordChar c) rest
    else
      match matchDigitsBound (c :: rest) with
      | some ds => some ds
      | none => scanMatch (isWordChar c) rest

/-- Decimal value of a digit string — `parseInt` on the captured group
(1 to 3 decimal digits). -/
def digitsVal (ds : List Char) : Nat :=
  ds.foldl (fun a c => 10 * a + (c.toNat - 48)) 0

/-- Embedding of `aiResponse.match(/\b(\d{1,3})\b/)` — the captured digits of the first match. -/
def gradeMatch (s : String) : Option (List Char) :=
  scanMatch false s.toList

/-- Embedding of `gradeMatch ? Math.min(parseInt(gradeMatch[1]), 100) : 75`. -/
def suggestedGrade (s : String) : Nat :=
  match gradeMatch s with
  | some ds => min (digitsVal ds) 100
  | none => 75

/-! ### Declarative (spec-side) description of the extraction

The spec says: "the numeric grade is extracted by taking the first 1–3 digit
number found in the free-text response (capped at 100, defaulting to 75 if no
number is found)".  The following definitions state this by position: a
word-bounded 1-to-3-digit number occurs at index `i` iff a non-empty maximal
digit run of length at most 3 starts at `i`, preceded (at `i - 1`) and followed
by a non-word character or the edge of the string; the first one is the one at
the least such index. -/

/-- The digit-run and right-boundary part of "a word-bounded 1-to-3-digit
number occurs at index `i` of `l`". -/
def specCoreAt (l : List Char) (i : Nat) : Bool :=
  !((l.drop i).takeWhile Char.isDigit).isEmpty
    && decide (((l.drop i).takeWhile Char.isDigit).length ≤ 3)
    && boundaryAfter ((l.drop i).dropWhile Char.isDigit)

/-- Occurrence predicate, generalised: a word-bounded 1-to-3-digit number occurs
at index `i`, parameterised over
the word-character status `b` of the character preceding the whole list (false
for a standalone string). -/
def specBoundedNumAtB (b : Bool) (l : List Char) (i : Nat) : Bool :=
  (match i with
   | 0 => !b
   | Nat.succ j =>
     match l.get? j with
     | some c => ! isWordChar c
     | none => false)
  && specCoreAt l i

/-- Occurrence predicate: a word-bounded 1-to-3-digit number occurs at index `i` of `l`. -/
def specBoundedNumAt (l : List Char) (i : Nat) : Bool :=
  specBoundedNumAtB false l i

/-- Modelled from the spec: the first (least-index) word-bounded 1-to-3-digit
number occurring in `l`, as a value. -/
def specFirstBoundedNum (l : List Char) : Option Nat :=
  ((List.range l.length).find? fun i => specBoundedNumAt l i).map
    fun i => digitsVal ((l.drop i).takeWhile Char.isDigit)

/-- Modelled from the spec: the first 1-to-3-digit word-bounded number found in
the response, capped at 100, defaulting to 75 if no number is found. -/
def specSuggestedGrade (s : String) : Nat :=
  match specFirstBoundedNum s.toList with
  | some n => min n 100
  | none => 75

/-! ## Schema: rows

From the migrations.  The auto-generated `id UUID PRIMARY KEY DEFAULT
gen_random_uuid()` surrogate keys are omitted from rows whose application-level
identity is a declared UNIQUE key (`attendance`, `class_enrollments`);
`assignment_submissions.id` is kept because the ai-grading handler updates by
it.  Timestamp columns that no modelled operation reads are omitted. -/

/-- A row of `public.classes` (columns used by the modelled operations). -/
structure ClassRow where
  id : Nat
  teacher_id : Nat
  class_code : String
deriving DecidableEq, Repr

/-- A row of `public.class_enrollments` (its UNIQUE(class_id, student_id) key). -/
structure EnrollmentRow where
  class_id : Nat
  student_id : Nat
deriving DecidableEq, Repr

/-- A row of `public.attendance`. -/
structure AttendanceRow where
  class_id : Nat
  student_id : Nat
  date : Nat
  status : String
  marked_by : Nat
deriving DecidableEq, Repr

/-- A row of `public.assignment_submissions`. -/
structure SubmissionRow where
  id : Nat
  assignment_id : Nat
  student_id : Nat
  content : String
  file_url : Option String
  submitted_at : Nat
  grade : Option Nat
  ai_feedback : Option String
  teacher_feedback : Option String
  graded_at : Option Nat
  graded_by : Option Nat
deriving DecidableEq, Repr

/-! ## Schema: constraints

The table `attendance` has a CHECK constraint restricting `status` to
present/absent/late and
`UNIQUE(class_id, student_id, date)`; `class_enrollments` has
`UNIQUE(class_id, student_id)`; `assignment_submissions` has
`UNIQUE(assignment_id, student_id)`.  Constraint-violating statements fail with
the Postgres error codes 23514 (check_violation) and 23505 (unique_violation)
and leave the table unchanged; a failing insert returns `(some code, table)`. -/

/-- The `attendance.status` CHECK constraint. -/
def validStatus (s : String) : Bool :=
  s == "present" || s == "absent" || s == "late"

/-- The UNIQUE key of an attendance row. -/
def attKey (r : AttendanceRow) : Nat × Nat × Nat :=
  (r.class_id, r.student_id, r.date)

/-- INSERT of one row into `attendance`, enforcing the CHECK and UNIQUE
constraints. -/
def insertAttendance (tbl : List AttendanceRow) (r : AttendanceRow) :
    Option Nat × List AttendanceRow :=
  if ! validStatus r.status then (some 23514, tbl)
  else if tbl.any (fun q => attKey q == attKey r) then (some 23505, tbl)
  else (none, tbl ++ [r])

/-- The row-by-row core of a multi-row INSERT into `attendance`; stops at the
first constraint violation. -/
def insertAttendanceList (tbl : List AttendanceRow) :
    List AttendanceRow → Except Nat (List AttendanceRow)
  | [] => Except.ok tbl
  | r :: rest =>
    match insertAttendance tbl r with
    | (some e, _) => Except.error e
    | (none, t2) => insertAttendanceList t2 rest

/-- A multi-row INSERT statement into `attendance`: atomic, so on any
constraint violation the whole statement fails and the table is unchanged. -/
def insertAttendanceMany (tbl : List AttendanceRow) (rows : List AttendanceRow) :
    Option Nat × List AttendanceRow :=
  match insertAttendanceList tbl rows with
  | Except.ok t => (none, t)
  | Except.error e => (some e, tbl)

/-- UPDATE on `attendance`: applies `f` to the rows selected by `p`, rechecking
the CHECK and UNIQUE constraints; on violation the statement fails and the
table is unchanged. -/
def updateAttendance (tbl : List AttendanceRow) (p : AttendanceRow → Bool)
    (f : AttendanceRow → AttendanceRow) : Option Nat × List AttendanceRow :=
  if ! (tbl.map fun r => if p r then f r else r).all (fun r => validStatus r.status) then
    (some 23514, tbl)
  else if ! decide (((tbl.map fun r => if p r then f r else r).map attKey).Nodup) then
    (some 23505, tbl)
  else (none, tbl.map fun r => if p r then f r else r)

/-- DELETE on `attendance` of the rows selected by `p`. -/
def deleteAttendance (tbl : List AttendanceRow) (p : AttendanceRow → Bool) :
    List AttendanceRow :=
  tbl.filter fun r => ! p r

/-- The invariant the `attendance` constraints enforce: every status is one of
present/absent/late, and at most one row per (class_id, student_id, date). -/
def AttInvariant (tbl : List AttendanceRow) : Prop :=
  (∀ r ∈ tbl, validStatus r.status = true) ∧ (tbl.map attKey).Nodup

/-- Database states of the `attendance` table reachable from the empty table by
the modelled statements (failed statements leave the table unchanged, so their
results are covered by the same constructors). -/
inductive AttReachable : List AttendanceRow → Prop
  | empty : AttReachable []
  | insert (tbl : List AttendanceRow) (r : AttendanceRow) :
      AttReachable tbl → AttReachable (insertAttendance tbl r).2
  | insertMany (tbl : List AttendanceRow) (rows : List AttendanceRow) :
      AttReachable tbl → AttReachable (insertAttendanceMany tbl rows).2
  | update (tbl : List AttendanceRow) (p : AttendanceRow → Bool)
      (f : AttendanceRow → AttendanceRow) :
      AttReachable tbl → AttReachable (updateAttendance tbl p f).2
  | delete (tbl : List AttendanceRow) (p : AttendanceRow → Bool) :
      AttReachable tbl → AttReachable (deleteAttendance tbl p)

/-- INSERT into `class_enrollments`, enforcing UNIQUE(class_id, student_id). -/
def insertEnrollment (tbl : List EnrollmentRow) (r : EnrollmentRow) :
    Option Nat × List EnrollmentRow :=
  if tbl.any (fun q => q.class_id == r.class_id && q.student_id == r.student_id) then
    (some 23505, tbl)
  else (none, tbl ++ [r])

/-- INSERT into `assignment_submissions`, enforcing
UNIQUE(assignment_id, student_id). -/
def insertSubmission (tbl : List SubmissionRow) (r : SubmissionRow) :
    Option Nat × List SubmissionRow :=
  if tbl.any (fun q => q.assignment_id == r.assignment_id && q.student_id == r.student_id) then
    (some 23505, tbl)
  else (none, tbl ++ [r])

/-! ## Row-level security on `attendance`

From the first migration: `ALTER TABLE public.attendance ENABLE ROW LEVEL
SECURITY` with exactly two policies, `FOR SELECT` ("Class members can view
attendance") and `FOR INSERT` ("Teachers can mark attendance", WITH CHECK that
the caller is the teacher of the class of the row).  No `FOR UPDATE` or `FOR DELETE`
policy on `attendance` exists in any migration, and with RLS enabled Postgres
denies by default: a DELETE statement simply affects zero rows, without an
error. -/

/-- Whether some DELETE policy on `attendance` permits `caller` to delete row
`r`: there is no DELETE policy, so no row is ever deletable. -/
def attendanceDeletePolicy (_caller : Nat) (_r : AttendanceRow) : Bool :=
  false

/-- The WITH CHECK predicate of the INSERT policy "Teachers can mark
attendance": the caller is the teacher of the class of the row. -/
def attendanceInsertPolicy (classes : List ClassRow) (caller : Nat)
    (r : AttendanceRow) : Bool :=
  classes.any fun c => c.id == r.class_id && c.teacher_id == caller

/-- A client DELETE on `attendance` under RLS: removes exactly the rows that
match the filters of the statement and are permitted by a DELETE policy; rows the
caller may not delete are silently left in place. -/
def rlsDeleteAttendance (caller : Nat) (tbl : List AttendanceRow)
    (cond : AttendanceRow → Bool) : List AttendanceRow :=
  tbl.filter fun r => ! (cond r && attendanceDeletePolicy caller r)

/-! ## Client operations -/

/-- Embedding of `submitAttendance` (AttendanceTracker.tsx): builds one record
per (studentId, status) entry of the attendance map of the component, with the
current class, the current date and the caller as `marked_by`; issues a DELETE of the
existing rows for (classId, today) — whose result the component ignores — and
then a bulk INSERT of the new records.  Both statements run as the signed-in
teacher, so RLS applies: the DELETE is filtered by `attendanceDeletePolicy`
and each inserted row must satisfy `attendanceInsertPolicy` (code 42501
otherwise).  Returns the error of the INSERT, if any, and the final table. -/
def submitAttendance (classes : List ClassRow) (caller : Nat)
    (tbl : List AttendanceRow) (classId : Nat) (today : Nat)
    (attendance : List (Nat × String)) : Option Nat × List AttendanceRow :=
  let attendanceRecords : List AttendanceRow :=
    attendance.map fun p =>
      { class_id := classId, student_id := p.1, date := today,
        status := p.2, marked_by := caller }
  let tbl1 := rlsDeleteAttendance caller tbl
    (fun r => r.class_id == classId && r.date == today)
  if ! attendanceRecords.all (attendanceInsertPolicy classes caller) then
    (some 42501, tbl1)
  else
    match insertAttendanceList tbl1 attendanceRecords with
    | Except.error e => (some e, tbl1)
    | Except.ok t2 => (none, t2)

/-- Result surfaced to the user by `handleJoinClass` (StudentDashboard.tsx). -/
inductive JoinOutcome
  | classNotFound
  | alreadyEnrolled
  | joined
  | joinError (code : Nat)
deriving DecidableEq, Repr

/-- Embedding of `classCode.toUpperCase()` on the entered code: character-wise ASCII
uppercasing (class codes are ASCII). -/
def toUpperStr (s : String) : String :=
  String.mk (s.toList.map Char.toUpper)

/-- The `.eq("class_code", code).single()` lookup of `handleJoinClass`:
succeeds iff exactly one class row carries the given code. -/
def lookupClassByCode (classes : List ClassRow) (code : String) : Option ClassRow :=
  match classes.filter (fun c => c.class_code == code) with
  | [c] => some c
  | _ => none

/-- Embedding of `handleJoinClass` (StudentDashboard.tsx): looks the class up by the
uppercased entered code; if none is found, surfaces "Class not found" and
changes nothing; otherwise inserts an enrollment row (class_id, caller),
surfacing a unique-constraint violation (code 23505) as "Already enrolled". -/
def handleJoinClass (classes : List ClassRow) (enrollments : List EnrollmentRow)
    (classCode : String) (caller : Nat) : JoinOutcome × List EnrollmentRow :=
  match lookupClassByCode classes (toUpperStr classCode) with
  | none => (JoinOutcome.classNotFound, enrollments)
  | some classData =>
    match insertEnrollment enrollments ⟨classData.id, caller⟩ with
    | (some e, tbl) =>
      if e = 23505 then (JoinOutcome.alreadyEnrolled, tbl)
      else (JoinOutcome.joinError e, tbl)
    | (none, tbl) => (JoinOutcome.joined, tbl)

/-! ## The ai-grading serverless handler

Second handler in `supabase/functions/send-notification-email/index.ts`: one
`fetch` of the AI gateway; 429 and 402 are mapped to fixed error bodies; any
other non-OK status raises `AI gateway error: <status>`, which the catch block
returns with status 500; on success the grade is extracted from the reply text
and written, with the full reply as `ai_feedback`, to the submission row whose
id is `submissionId` (service-role client, so RLS does not apply).  The
outbound call and the database write are recorded as an effect trace. -/

/-- The reply of the AI gateway: HTTP status, and — when OK — the reply text
`data.choices[0].message.content`. -/
structure GatewayResponse where
  status : Nat
  content : String
deriving DecidableEq, Repr

/-- Embedding of `Response.ok` of `fetch`: status in the range 200–299. -/
def gwOk (r : GatewayResponse) : Bool :=
  200 ≤ r.status && r.status < 300

/-- Externally visible effects of one ai-grading request. -/
inductive AiEffect
  | httpCall
  | dbUpdate (submissionId : Nat) (grade : Nat) (feedback : String)
deriving DecidableEq, Repr

/-- JSON body of the response of the handler. -/
inductive AiBody
  | errorMsg (msg : String)
  | gradeResult (grade : Nat) (feedback : String)
deriving DecidableEq, Repr

/-- The HTTP response of the handler. -/
structure AiResponse where
  status : Nat
  body : AiBody
deriving DecidableEq, Repr

/-- Outcome of one ai-grading request: the response, the
`assignment_submissions` table afterwards, and the effect trace. -/
structure AiOutcome where
  resp : AiResponse
  table : List SubmissionRow
  trace : List AiEffect
deriving DecidableEq, Repr

/-- The ai-grading handler. -/
def aiGradingHandler (table : List SubmissionRow) (submissionId : Nat)
    (gw : GatewayResponse) : AiOutcome :=
  if ! gwOk gw then
    if gw.status = 429 then
      { resp := ⟨429, AiBody.errorMsg "Rate limit exceeded. Please try again later."⟩,
        table := table, trace := [AiEffect.httpCall] }
    else if gw.status = 402 then
      { resp := ⟨402, AiBody.errorMsg "AI usage limit reached. Please add credits to continue."⟩,
        table := table, trace := [AiEffect.httpCall] }
    else
      { resp := ⟨500, AiBody.errorMsg ("AI gateway error: " ++ toString gw.status)⟩,
        table := table, trace := [AiEffect.httpCall] }
  else
    let aiResponse := gw.content
    let grade := suggestedGrade aiResponse
    let table2 := table.map fun r =>
      if r.id = submissionId then
        { r with ai_feedback := some aiResponse, grade := some grade }
      else r
    { resp := ⟨200, AiBody.gradeResult grade aiResponse⟩,
      table := table2,
      trace := [AiEffect.httpCall, AiEffect.dbUpdate submissionId grade aiResponse] }

/-! ## The send-notification-email serverless handler

First handler in the same file: parses {to, studentName, title, message, type}
from the request body, logs it, and returns a fixed acknowledgement — the
Resend email call is commented out, so no outbound email is ever sent. -/

/-- The parsed request body of the notification handler. -/
structure EmailRequest where
  «to» : String
  studentName : String
  title : String
  message : String
  type : String
deriving DecidableEq, Repr

/-- JSON body of the response of the notification handler. -/
inductive NotifBody
  | ackJson (success : Bool) (message : String)
  | errJson (error : String)
  | empty
deriving DecidableEq, Repr

/-- The HTTP response of the notification handler. -/
structure NotifResponse where
  status : Nat
  body : NotifBody
deriving DecidableEq, Repr

/-- Externally visible effects of one notification request. -/
inductive NotifEffect
  | emailSend (recipient : String)
deriving DecidableEq, Repr

/-- The send-notification-email handler: OPTIONS gets the bare CORS response;
otherwise a parseable body gets the fixed success acknowledgement (no email
effect — the send is commented out), and an unparseable body lands in the
catch block with status 500 (its message is the thrown parse error, modelled
as a fixed placeholder). -/
def sendNotificationEmailHandler (method : String) (body : Option EmailRequest) :
    NotifResponse × List NotifEffect :=
  if method = "OPTIONS" then (⟨200, NotifBody.empty⟩, [])
  else
    match body with
    | some _ =>
      (⟨200, NotifBody.ackJson true "Notification logged (email sending requires Resend setup)"⟩, [])
    | none => (⟨500, NotifBody.errJson "invalid JSON body"⟩, [])

/-! ## Attendance percentage widgets

`fetchAttendanceStats` (TeacherAttendanceStats): per class the source computes
`totalRecords > 0 ? (presentRecords / totalRecords) * 100 : 0` and displays
`Math.round` of it; the overall figure does the same on counts summed over all
classes.  JavaScript numbers are IEEE 754 binary64: the record counts (array
lengths, below 2^53 in any engine) and the literal 100 are exact doubles, the
integer accumulations `+=` are exact below 2^53, each of the two arithmetic
steps `presentRecords / totalRecords` and `· * 100` rounds its exact result to
the nearest double (ties to even), and `Math.round` is defined mathematically
on the exact value of its double argument, so `Math.round x = ⌊x + 1/2⌋`.
`floatRound` is rounding to a 53-bit significand with round-to-nearest
ties-to-even and unbounded exponent range, which agrees with binary64 on every
value these computations can reach: all quotients and products here lie in the
normal range, with no overflow and no subnormals. -/

/-- Round a rational to the nearest integer, ties to even — the significand
rounding of IEEE round-to-nearest-even. -/
def rne (x : ℚ) : ℤ :=
  if x - Int.floor x < 1 / 2 then Int.floor x
  else if 1 / 2 < x - Int.floor x then Int.floor x + 1
  else if Int.floor x % 2 = 0 then Int.floor x else Int.floor x + 1

/-- Round a rational to the nearest IEEE binary64 value (53-bit significand,
round-to-nearest ties-to-even, unbounded exponent): scale into [2^52, 2^53),
round the significand to an integer, and scale back. -/
def floatRound (q : ℚ) : ℚ :=
  if q = 0 then 0
  else (rne (q * 2 ^ (52 - Int.log 2 |q|)) : ℚ) / 2 ^ (52 - Int.log 2 |q|)

/-- Embedding of `Math.round`, exact on the value of its double argument. -/
def jsRound (q : ℚ) : ℤ :=
  Int.floor (q + 1 / 2)

/-- Per-class percentage as the program computes it in doubles:
`Math.round` of `totalRecords > 0 ? (presentRecords / totalRecords) * 100 : 0`,
with one binary64 rounding per arithmetic step, from the list of the attendance
statuses of the class. -/
def classAttendancePctFP (statuses : List String) : ℤ :=
  if 0 < statuses.length then
    jsRound (floatRound (floatRound
      (((statuses.filter fun a => a == "present").length : ℚ) /
        (statuses.length : ℚ)) * 100))
  else 0

/-- Overall percentage as the program computes it in doubles: the same two
rounded arithmetic steps on the (exactly accumulated) summed counts over all
classes. -/
def overallAttendancePctFP (perClass : List (List String)) : ℤ :=
  if 0 < (perClass.map fun l => l.length).sum then
    jsRound (floatRound (floatRound
      (((((perClass.map fun l => (l.filter fun a => a == "present").length).sum : Nat)) : ℚ) /
        ((((perClass.map fun l => l.length).sum : Nat)) : ℚ)) * 100))
  else 0

/-! ## Theorems -/

theorem isWordChar_of_isDigit {c : Char} (h : c.isDigit = true) :
    isWordChar c = true := by
  simp [isWordChar, h]

/-- The positional match `\d{1,3}\b` succeeds exactly on a non-empty maximal
digit prefix of length at most 3 followed by a word boundary, and captures that
prefix. -/
theorem matchDigitsBound_eq (l : List Char) :
    matchDigitsBound l =
      if specCoreAt l 0 then some (l.takeWhile Char.isDigit) else none := by
  rcases l with _ | ⟨c1, _ | ⟨c2, _ | ⟨c3, r3⟩⟩⟩
  · simp [matchDigitsBound, specCoreAt]
  · by_cases h1 : c1.isDigit <;>
      simp [matchDigitsBound, specCoreAt, h1, boundaryAfter]
  · by_cases h1 : c1.isDigit <;> by_cases h2 : c2.isDigit <;>
      simp [matchDigitsBound, specCoreAt, h1, h2, boundaryAfter]
  · by_cases h1 : c1.isDigit
    · by_cases h2 : c2.isDigit
      · by_cases h3 : c3.isDigit
        · rcases r3 with _ | ⟨c4, r4⟩
          · simp [matchDigitsBound, specCoreAt, h1, h2, h3, boundaryAfter]
          · by_cases h4 : c4.isDigit
            · have hw : isWordChar c4 = true := isWordChar_of_isDigit h4
              simp [matchDigitsBound, specCoreAt, h1, h2, h3, h4, hw, boundaryAfter]
            · simp [matchDigitsBound, specCoreAt, h1, h2, h3, h4, boundaryAfter]
        · simp [matchDigitsBound, specCoreAt, h1, h2, h3, boundaryAfter]
      · simp [matchDigitsBound, specCoreAt, h1, h2, boundaryAfter]
    · simp [matchDigitsBound, specCoreAt, h1]

/-- Shifting the spec-side occurrence predicate across the head character. -/
theorem specBoundedNumAtB_succ (b : Bool) (c : Char) (rest : List Char) (j : Nat) :
    specBoundedNumAtB b (c :: rest) (j + 1) = specBoundedNumAtB (isWordChar c) rest j := by
  cases j with
  | zero => simp [specBoundedNumAtB, specCoreAt]
  | succ k => simp [specBoundedNumAtB, specCoreAt]

/-- The left-to-right scan of the regex engine finds exactly the least-index
word-bounded occurrence described by `specBoundedNumAtB`. -/
theorem scanMatch_eq_find (b : Bool) (l : List Char) :
    scanMatch b l =
      ((List.range l.length).find? (specBoundedNumAtB b l)).map
        (fun i => (l.drop i).takeWhile Char.isDigit) := by
  induction l generalizing b with
  | nil => simp [scanMatch]
  | cons c rest ih =>
    have hshift : (specBoundedNumAtB b (c :: rest)) ∘ Nat.succ
        = specBoundedNumAtB (isWordChar c) rest := by
      funext j
      exact specBoundedNumAtB_succ b c rest j
    rw [List.length_cons, List.range_succ_eq_map]
    by_cases h0 : specBoundedNumAtB b (c :: rest) 0 = true
    · have hb : b = false := by
        cases b
        · rfl
        · simp [specBoundedNumAtB] at h0
      subst hb
      have hcore : specCoreAt (c :: rest) 0 = true := by
        simpa [specBoundedNumAtB] using h0
      rw [List.find?_cons_of_pos _ h0]
      simp [scanMatch, matchDigitsBound_eq, hcore]
    · rw [List.find?_cons_of_neg _ h0]
      have hstep : scanMatch b (c :: rest) = scanMatch (isWordChar c) rest := by
        cases b with
        | true => simp [scanMatch]
        | false =>
          have hcore : specCoreAt (c :: rest) 0 = false := by
            simpa [specBoundedNumAtB] using h0
          simp [scanMatch, matchDigitsBound_eq, hcore]
      rw [hstep, ih (isWordChar c), List.find?_map, hshift, Option.map_map]
      congr 1

/-- The heuristic grade of the handler equals the description in the spec: the first
word-bounded 1-to-3-digit number, capped at 100, defaulting to 75. -/
theorem suggestedGrade_eq_spec (s : String) :
    suggestedGrade s = specSuggestedGrade s := by
  unfold suggestedGrade specSuggestedGrade gradeMatch specFirstBoundedNum
  rw [scanMatch_eq_find false s.toList]
  have hfun : (specBoundedNumAtB false s.toList) = fun i => specBoundedNumAt s.toList i := by
    funext i
    rfl
  rw [hfun]
  cases hf : (List.range s.toList.length).find? (fun i => specBoundedNumAt s.toList i) with
  | none => simp
  | some i => simp

/-- A reply without any digit character has no match, hence grade 75. -/
theorem scanMatch_eq_none_of_no_digit (l : List Char) :
    ∀ b : Bool, (∀ c ∈ l, c.isDigit = false) → scanMatch b l = none := by
  induction l with
  | nil =>
    intro b _
    simp [scanMatch]
  | cons c rest ih =>
    intro b h
    have hc : c.isDigit = false := h c (List.mem_cons_self c rest)
    have hrest : ∀ x ∈ rest, x.isDigit = false := fun x hx => h x (List.mem_cons_of_mem c hx)
    have hmd : matchDigitsBound (c :: rest) = none := by
      simp [matchDigitsBound, hc]
    cases b with
    | false =>
      rw [show scanMatch false (c :: rest) = scanMatch (isWordChar c) rest by
        simp [scanMatch, hmd]]
      exact ih _ hrest
    | true =>
      rw [show scanMatch true (c :: rest) = scanMatch (isWordChar c) rest by
        simp [scanMatch]]
      exact ih _ hrest

theorem suggestedGrade_eq_75_of_no_digit (s : String)
    (h : ∀ c ∈ s.toList, c.isDigit = false) : suggestedGrade s = 75 := by
  unfold suggestedGrade gradeMatch
  rw [scanMatch_eq_none_of_no_digit s.toList false h]

theorem validStatus_iff (s : String) :
    validStatus s = true ↔ s = "present" ∨ s = "absent" ∨ s = "late" := by
  simp [validStatus, or_assoc]

theorem insertAttendance_inv (tbl : List AttendanceRow) (r : AttendanceRow)
    (h : AttInvariant tbl) : AttInvariant (insertAttendance tbl r).2 := by
  unfold insertAttendance
  split
  · exact h
  · split
    · exact h
    · rename_i hs hdup
      rw [Bool.not_eq_true, Bool.not_eq_false'] at hs
      rw [Bool.not_eq_true] at hdup
      constructor
      · intro x hx
        rcases List.mem_append.1 hx with hx | hx
        · exact h.1 x hx
        · rw [List.mem_singleton.1 hx]
          exact hs
      · rw [List.map_append, List.nodup_append]
        refine ⟨h.2, List.nodup_singleton _, ?_⟩
        intro a ha hb
        simp only [List.map_cons, List.map_nil, List.mem_singleton] at hb
        subst hb
        rcases List.mem_map.1 ha with ⟨q, hq, hqa⟩
        have : (tbl.any fun q => attKey q == attKey r) = true :=
          List.any_eq_true.2 ⟨q, hq, by simp [hqa]⟩
        simp [this] at hdup

theorem insertAttendanceList_inv (rows : List AttendanceRow) :
    ∀ tbl : List AttendanceRow, AttInvariant tbl →
      ∀ t, insertAttendanceList tbl rows = Except.ok t → AttInvariant t := by
  induction rows with
  | nil =>
    intro tbl h t ht
    unfold insertAttendanceList at ht
    cases ht
    exact h
  | cons r rest ih =>
    intro tbl h t ht
    unfold insertAttendanceList at ht
    rcases hins : insertAttendance tbl r with ⟨err, t2⟩
    rw [hins] at ht
    cases err with
    | some e => simp at ht
    | none =>
      simp only at ht
      have h2 : AttInvariant t2 := by
        have := insertAttendance_inv tbl r h
        rw [hins] at this
        exact this
      exact ih t2 h2 t ht

theorem insertAttendanceMany_inv (tbl : List AttendanceRow)
    (rows : List AttendanceRow) (h : AttInvariant tbl) :
    AttInvariant (insertAttendanceMany tbl rows).2 := by
  unfold insertAttendanceMany
  rcases hres : insertAttendanceList tbl rows with e | t
  · simpa using h
  · simpa using insertAttendanceList_inv rows tbl h t hres

theorem updateAttendance_inv (tbl : List AttendanceRow)
    (p : AttendanceRow → Bool) (f : AttendanceRow → AttendanceRow)
    (h : AttInvariant tbl) : AttInvariant (updateAttendance tbl p f).2 := by
  unfold updateAttendance
  split
  · exact h
  · split
    · exact h
    · rename_i hall hnd
      rw [Bool.not_eq_true, Bool.not_eq_false'] at hall hnd
      exact ⟨fun r hr => List.all_eq_true.1 hall r hr, of_decide_eq_true hnd⟩

theorem deleteAttendance_inv (tbl : List AttendanceRow)
    (p : AttendanceRow → Bool) (h : AttInvariant tbl) :
    AttInvariant (deleteAttendance tbl p) := by
  unfold deleteAttendance
  refine ⟨fun r hr => h.1 r (List.mem_of_mem_filter hr), ?_⟩
  exact List.Nodup.sublist (List.Sublist.map attKey (List.filter_sublist tbl)) h.2

theorem attReachable_inv (tbl : List AttendanceRow) (h : AttReachable tbl) :
    AttInvariant tbl := by
  induction h with
  | empty => exact ⟨by simp, by simp⟩
  | insert tbl r _ ih => exact insertAttendance_inv tbl r ih
  | insertMany tbl rows _ ih => exact insertAttendanceMany_inv tbl rows ih
  | update tbl p f _ ih => exact updateAttendance_inv tbl p f ih
  | delete tbl p _ ih => exact deleteAttendance_inv tbl p ih

/-- The duplicate check of `insertEnrollment` tests exactly membership of the
(class_id, student_id) pair. -/
theorem enrollment_any_iff (tbl : List EnrollmentRow) (r : EnrollmentRow) :
    (tbl.any fun q => q.class_id == r.class_id && q.student_id == r.student_id) = true
      ↔ r ∈ tbl := by
  rw [List.any_eq_true]
  constructor
  · rintro ⟨q, hq, hf⟩
    have hqr : q = r := by
      rcases q with ⟨qa, qb⟩
      rcases r with ⟨ra, rb⟩
      simp at hf
      simp [hf]
    rwa [hqr] at hq
  · intro hr
    exact ⟨r, hr, by simp⟩

/-- C8: in every reachable state of the `attendance` table, the status of every row
is one of present/absent/late, and there is at most one row per
(class_id, student_id, date) triple. -/
theorem claim_C8_attendance_invariant (tbl : List AttendanceRow)
    (h : AttReachable tbl) :
    (∀ r ∈ tbl, r.status = "present" ∨ r.status = "absent" ∨ r.status = "late") ∧
    (tbl.map attKey).Nodup := by
  have hinv := attReachable_inv tbl h
  exact ⟨fun r hr => (validStatus_iff r.status).1 (hinv.1 r hr), hinv.2⟩

theorem claim_C8_witness :
    ((insertAttendance [] ⟨1, 2, 3, "present", 9⟩).2.map attKey).Nodup :=
  (claim_C8_attendance_invariant _
    (AttReachable.insert [] ⟨1, 2, 3, "present", 9⟩ AttReachable.empty)).2

/-- C7: inserting a submission for an (assignment_id, student_id) pair that
already has a row fails with the unique-constraint violation 23505 and leaves
the table unchanged. -/
theorem claim_C7_submission_unique (tbl : List SubmissionRow) (r : SubmissionRow)
    (h : ∃ q ∈ tbl, q.assignment_id = r.assignment_id ∧ q.student_id = r.student_id) :
    insertSubmission tbl r = (some 23505, tbl) := by
  rcases h with ⟨q, hq, h1, h2⟩
  have hany : (tbl.any fun q =>
      q.assignment_id == r.assignment_id && q.student_id == r.student_id) = true :=
    List.any_eq_true.2 ⟨q, hq, by simp [h1, h2]⟩
  simp [insertSubmission, hany]

theorem claim_C7_witness :
    insertSubmission [⟨1, 4, 2, "first try", none, 0, none, none, none, none, none⟩]
        ⟨2, 4, 2, "second try", none, 1, none, none, none, none, none⟩ =
      (some 23505, [⟨1, 4, 2, "first try", none, 0, none, none, none, none, none⟩]) :=
  claim_C7_submission_unique
    [⟨1, 4, 2, "first try", none, 0, none, none, none, none, none⟩]
    ⟨2, 4, 2, "second try", none, 1, none, none, none, none, none⟩
    ⟨⟨1, 4, 2, "first try", none, 0, none, none, none, none, none⟩, by decide, rfl, rfl⟩

/-- C4: `handleJoinClass` surfaces a failed class-code lookup as "Class not
found" without touching the enrollments; for a found class it inserts
(class_id, caller), rejecting a duplicate with the unique-constraint violation
23505 surfaced as "Already enrolled" and leaving exactly one enrollment row for
that pair. -/
theorem claim_C4_join_class (classes : List ClassRow)
    (enrollments : List EnrollmentRow) (code : String) (caller : Nat) :
    (lookupClassByCode classes (toUpperStr code) = none →
      handleJoinClass classes enrollments code caller =
        (JoinOutcome.classNotFound, enrollments)) ∧
    (∀ cl, lookupClassByCode classes (toUpperStr code) = some cl →
      (EnrollmentRow.mk cl.id caller ∈ enrollments →
        handleJoinClass classes enrollments code caller =
          (JoinOutcome.alreadyEnrolled, enrollments) ∧
        (enrollments.Nodup →
          (handleJoinClass classes enrollments code caller).2.count
            (EnrollmentRow.mk cl.id caller) = 1)) ∧
      (EnrollmentRow.mk cl.id caller ∉ enrollments →
        handleJoinClass classes enrollments code caller =
          (JoinOutcome.joined, enrollments ++ [EnrollmentRow.mk cl.id caller]))) := by
  constructor
  · intro hn
    simp [handleJoinClass, hn]
  · intro cl hs
    constructor
    · intro hmem
      have hany : (enrollments.any fun q =>
          q.class_id == cl.id && q.student_id == caller) = true :=
        (enrollment_any_iff enrollments ⟨cl.id, caller⟩).2 hmem
      have hh : handleJoinClass classes enrollments code caller =
          (JoinOutcome.alreadyEnrolled, enrollments) := by
        simp [handleJoinClass, hs, insertEnrollment, hany]
      refine ⟨hh, fun hnd => ?_⟩
      rw [hh]
      exact List.count_eq_one_of_mem hnd hmem
    · intro hnmem
      have hany : (enrollments.any fun q =>
          q.class_id == cl.id && q.student_id == caller) = false := by
        rw [← Bool.not_eq_true]
        intro hc
        exact hnmem ((enrollment_any_iff enrollments ⟨cl.id, caller⟩).1 hc)
      simp [handleJoinClass, hs, insertEnrollment, hany]

theorem claim_C4_witness :
    handleJoinClass [⟨1, 9, "ABC"⟩] [⟨1, 7⟩] "zzz" 7 =
      (JoinOutcome.classNotFound, [⟨1, 7⟩]) ∧
    handleJoinClass [⟨1, 9, "ABC"⟩] [⟨1, 7⟩] "abc" 7 =
      (JoinOutcome.alreadyEnrolled, [⟨1, 7⟩]) ∧
    (handleJoinClass [⟨1, 9, "ABC"⟩] [⟨1, 7⟩] "abc" 7).2.count ⟨1, 7⟩ = 1 ∧
    handleJoinClass [⟨1, 9, "ABC"⟩] [] "abc" 8 =
      (JoinOutcome.joined, [⟨1, 8⟩]) :=
  ⟨(claim_C4_join_class [⟨1, 9, "ABC"⟩] [⟨1, 7⟩] "zzz" 7).1 (by decide),
   (((claim_C4_join_class [⟨1, 9, "ABC"⟩] [⟨1, 7⟩] "abc" 7).2 ⟨1, 9, "ABC"⟩
      (by decide)).1 (by decide)).1,
   (((claim_C4_join_class [⟨1, 9, "ABC"⟩] [⟨1, 7⟩] "abc" 7).2 ⟨1, 9, "ABC"⟩
      (by decide)).1 (by decide)).2 (by decide),
   ((claim_C4_join_class [⟨1, 9, "ABC"⟩] [] "abc" 8).2 ⟨1, 9, "ABC"⟩
      (by decide)).2 (by decide)⟩

/-- C1 (bug evidence): the delete-then-insert of the component does not replace the
stored attendance.  RLS on `attendance` has no DELETE policy, so the DELETE
phase of `submitAttendance` removes nothing — at the concrete failing input a
row for student 2 is already stored for (class 1, date 5), the teacher submits
the set {(student 3, present)}, the call completes successfully (`none`), and
the stored rows for (class 1, date 5) are those for students 2 AND 3 rather
than exactly the submitted set.  The last conjunct is the general fact forced
by the missing policy: the client DELETE never removes any row. -/
theorem claim_C1_attendance_not_replaced :
    submitAttendance [⟨1, 9, "MATH1"⟩] 9 [⟨1, 2, 5, "present", 9⟩] 1 5
        [(3, "present")] =
      (none, [⟨1, 2, 5, "present", 9⟩, ⟨1, 3, 5, "present", 9⟩]) ∧
    ∀ (caller : Nat) (tbl : List AttendanceRow) (cond : AttendanceRow → Bool),
      rlsDeleteAttendance caller tbl cond = tbl := by
  constructor
  · decide
  · intro caller tbl cond
    simp [rlsDeleteAttendance, attendanceDeletePolicy]

/-- C2: on a successful gateway call, the computed grade is exactly the first
word-bounded 1-to-3-digit number of the reply text capped at 100 via min, or 75
when no such number occurs; that value is returned in the response body and
written (with the reply as ai_feedback) to every submission row whose id is
`submissionId`. -/
theorem claim_C2_grade_extraction (table : List SubmissionRow) (sid : Nat)
    (gw : GatewayResponse) (hok : gwOk gw = true) :
    (aiGradingHandler table sid gw).resp =
      ⟨200, AiBody.gradeResult (specSuggestedGrade gw.content) gw.content⟩ ∧
    ∀ r ∈ (aiGradingHandler table sid gw).table, r.id = sid →
      r.grade = some (specSuggestedGrade gw.content) ∧
      r.ai_feedback = some gw.content := by
  constructor
  · simp [aiGradingHandler, hok, suggestedGrade_eq_spec]
  · intro r hr hid
    simp only [aiGradingHandler, hok, Bool.not_true, if_false] at hr
    rcases List.mem_map.1 hr with ⟨q, _, hqr⟩
    by_cases hqid : q.id = sid
    · rw [← hqr]
      simp [hqid, suggestedGrade_eq_spec]
    · rw [← hqr] at hid
      simp [hqid] at hid

theorem claim_C2_witness :
    gwOk ⟨200, "Overall: 85. Good work."⟩ = true ∧
    (aiGradingHandler [] 5 ⟨200, "Overall: 85. Good work."⟩).resp =
      ⟨200, AiBody.gradeResult (specSuggestedGrade "Overall: 85. Good work.")
        "Overall: 85. Good work."⟩ :=
  ⟨by decide,
   (claim_C2_grade_extraction [] 5 ⟨200, "Overall: 85. Good work."⟩ (by decide)).1⟩

/-- C3 fails as stated: the reply "285" contains the digit sequence "85", yet
the stored grade is min(285, 100) = 100, not 85 — the extraction keys on the
first word-bounded number, not on any contained digit sequence. -/
theorem claim_C3_counterexample :
    ((aiGradingHandler [⟨1, 1, 2, "essay", none, 0, none, none, none, none, none⟩] 1
        ⟨200, "285"⟩).table.map fun r => r.grade) = [some 100] ∧
    "285".toList = '2' :: "85".toList := by
  constructor
  · decide
  · rfl

/-- C3 as amended: for every AI reply text whose first word-bounded
1-to-3-digit number is 85 the grade returned and stored is 85; and for every
reply text containing no digit character the grade returned and stored is
75. -/
theorem claim_C3_amended (table : List SubmissionRow) (sid : Nat) (s t : String)
    (h85 : specFirstBoundedNum s.toList = some 85)
    (hnd : ∀ c ∈ t.toList, c.isDigit = false) :
    (aiGradingHandler table sid ⟨200, s⟩).resp.body =
      AiBody.gradeResult 85 s ∧
    (aiGradingHandler table sid ⟨200, t⟩).resp.body =
      AiBody.gradeResult 75 t ∧
    (aiGradingHandler table sid ⟨200, s⟩).table =
      (table.map fun r => if r.id = sid then
        { r with ai_feedback := some s, grade := some 85 } else r) ∧
    (aiGradingHandler table sid ⟨200, t⟩).table =
      (table.map fun r => if r.id = sid then
        { r with ai_feedback := some t, grade := some 75 } else r) := by
  have h85g : suggestedGrade s = 85 := by
    rw [suggestedGrade_eq_spec]
    unfold specSuggestedGrade
    rw [h85]
    rfl
  have h75 : suggestedGrade t = 75 := suggestedGrade_eq_75_of_no_digit t hnd
  have hok : gwOk ⟨200, s⟩ = true := rfl
  have hok2 : gwOk ⟨200, t⟩ = true := rfl
  refine ⟨?_, ?_, ?_, ?_⟩ <;>
    simp [aiGradingHandler, hok, hok2, h85g, h75]

theorem claim_C3_witness :
    (aiGradingHandler [] 1 ⟨200, "Grade: 85/100"⟩).resp.body =
      AiBody.gradeResult 85 "Grade: 85/100" ∧
    (aiGradingHandler [] 1 ⟨200, "Solid work, well argued."⟩).resp.body =
      AiBody.gradeResult 75 "Solid work, well argued." :=
  ⟨(claim_C3_amended [] 1 "Grade: 85/100" "Solid work, well argued."
      (by decide) (by decide)).1,
   (claim_C3_amended [] 1 "Grade: 85/100" "Solid work, well argued."
      (by decide) (by decide)).2.1⟩

/-- C5: every request makes exactly one outbound gateway call; a 429 gateway
status yields status 429 with the fixed rate-limit body, a 402 status yields
status 402 with the fixed credits body, and any other non-OK status yields
status 500 — in all three failure cases the submission table is untouched and
no database-update effect occurs. -/
theorem claim_C5_failure_modes (table : List SubmissionRow) (sid : Nat)
    (gw : GatewayResponse) :
    (aiGradingHandler table sid gw).trace.count AiEffect.httpCall = 1 ∧
    (gw.status = 429 →
      aiGradingHandler table sid gw =
        { resp := ⟨429, AiBody.errorMsg "Rate limit exceeded. Please try again later."⟩,
          table := table, trace := [AiEffect.httpCall] }) ∧
    (gw.status = 402 →
      aiGradingHandler table sid gw =
        { resp := ⟨402, AiBody.errorMsg "AI usage limit reached. Please add credits to continue."⟩,
          table := table, trace := [AiEffect.httpCall] }) ∧
    (gwOk gw = false → gw.status ≠ 429 → gw.status ≠ 402 →
      (aiGradingHandler table sid gw).resp.status = 500 ∧
      (aiGradingHandler table sid gw).table = table ∧
      (aiGradingHandler table sid gw).trace = [AiEffect.httpCall]) := by
  refine ⟨?_, ?_, ?_, ?_⟩
  · by_cases hok : gwOk gw = true
    · simp [aiGradingHandler, hok]
    · rw [Bool.not_eq_true] at hok
      by_cases h429 : gw.status = 429 <;> by_cases h402 : gw.status = 402 <;>
        simp [aiGradingHandler, hok, h429, h402]
  · intro h429
    have hok : gwOk gw = false := by
      simp [gwOk, h429]
    simp [aiGradingHandler, hok, h429]
  · intro h402
    have hok : gwOk gw = false := by
      simp [gwOk, h402]
    have h429 : ¬ gw.status = 429 := by
      rw [h402]
      decide
    simp [aiGradingHandler, hok, h402, h429]
  · intro hok h429 h402
    simp [aiGradingHandler, hok, h429, h402]

theorem claim_C5_witness :
    aiGradingHandler [] 3 ⟨429, ""⟩ =
      { resp := ⟨429, AiBody.errorMsg "Rate limit exceeded. Please try again later."⟩,
        table := [], trace := [AiEffect.httpCall] } ∧
    aiGradingHandler [] 3 ⟨402, ""⟩ =
      { resp := ⟨402, AiBody.errorMsg "AI usage limit reached. Please add credits to continue."⟩,
        table := [], trace := [AiEffect.httpCall] } ∧
    (aiGradingHandler [] 3 ⟨503, ""⟩).resp.status = 500 ∧
    (aiGradingHandler [] 3 ⟨503, ""⟩).table = [] ∧
    (aiGradingHandler [] 3 ⟨503, ""⟩).trace = [AiEffect.httpCall] :=
  ⟨(claim_C5_failure_modes [] 3 ⟨429, ""⟩).2.1 rfl,
   (claim_C5_failure_modes [] 3 ⟨402, ""⟩).2.2.1 rfl,
   (claim_C5_failure_modes [] 3 ⟨503, ""⟩).2.2.2 (by decide) (by decide) (by decide)⟩

/-- C6: on a successful gateway call the handler rewrites exactly the rows
whose id equals `submissionId`, setting grade and ai_feedback to the freshly
computed values regardless of the prior contents of the rows (any stored
teacher-assigned grade included), leaving every other column and every other
row unchanged. -/
theorem claim_C6_unconditional_write (table : List SubmissionRow) (sid : Nat)
    (gw : GatewayResponse) (hok : gwOk gw = true) :
    (aiGradingHandler table sid gw).table.length = table.length ∧
    ∀ i (h1 : i < table.length) (h2 : i < (aiGradingHandler table sid gw).table.length),
      (table[i].id ≠ sid →
        (aiGradingHandler table sid gw).table[i] = table[i]) ∧
      (table[i].id = sid →
        (aiGradingHandler table sid gw).table[i] =
          { table[i] with
              grade := some (suggestedGrade gw.content),
              ai_feedback := some gw.content }) := by
  have htab : (aiGradingHandler table sid gw).table =
      table.map fun r => if r.id = sid then
        { r with ai_feedback := some gw.content,
                 grade := some (suggestedGrade gw.content) } else r := by
    simp [aiGradingHandler, hok]
  constructor
  · rw [htab, List.length_map]
  · intro i h1 h2
    constructor
    · intro hne
      simp only [htab, List.getElem_map]
      rw [if_neg hne]
    · intro heq
      simp only [htab, List.getElem_map]
      rw [if_pos heq]

theorem claim_C6_witness :
    gwOk ⟨200, "I would give this 85."⟩ = true ∧
    (aiGradingHandler
        [⟨1, 4, 2, "essay", none, 0, some 55, none, some "ok", some 7, some 9⟩] 1
        ⟨200, "I would give this 85."⟩).table.length =
      [(⟨1, 4, 2, "essay", none, 0, some 55, none, some "ok", some 7, some 9⟩ :
        SubmissionRow)].length :=
  ⟨by decide,
   (claim_C6_unconditional_write
      [⟨1, 4, 2, "essay", none, 0, some 55, none, some "ok", some 7, some 9⟩] 1
      ⟨200, "I would give this 85."⟩ (by decide)).1⟩

/-- C9: any non-OPTIONS request whose body parses to the expected
{to, studentName, title, message, type} fields — whatever their values — gets
status 200 with success true and the fixed acknowledgement message, and no
email-send effect is performed. -/
theorem claim_C9_notification_ack (b : EmailRequest) :
    sendNotificationEmailHandler "POST" (some b) =
      (⟨200, NotifBody.ackJson true
        "Notification logged (email sending requires Resend setup)"⟩, []) := by
  simp [sendNotificationEmailHandler]

theorem jsRound_nonneg {q : ℚ} (h : -(1 / 2) ≤ q) : 0 ≤ jsRound q := by
  unfold jsRound
  rw [Int.le_floor]
  push_cast
  linarith

theorem jsRound_le_100 {q : ℚ} (h : q < 100 + 1 / 2) : jsRound q ≤ 100 := by
  unfold jsRound
  have hlt : Int.floor (q + 1 / 2) < 101 := by
    rw [Int.floor_lt]
    push_cast
    linarith
  omega

/-- Rounding-to-integer of two arguments less than 1 apart differs by at most
one. -/
theorem jsRound_abs_diff {a b : ℚ} (h : |a - b| < 1) :
    |jsRound a - jsRound b| ≤ 1 := by
  rw [abs_lt] at h
  unfold jsRound
  have h1 : Int.floor (a + 1 / 2) ≤ Int.floor (b + 1 / 2) + 1 := by
    have hle : a + 1 / 2 ≤ (b + 1 / 2) + 1 := by linarith
    calc Int.floor (a + 1 / 2) ≤ Int.floor ((b + 1 / 2) + 1) := Int.floor_le_floor hle
      _ = Int.floor (b + 1 / 2) + 1 := by
          rw [show ((b + 1 / 2) + 1 : ℚ) = (b + 1 / 2) + ((1 : ℤ) : ℚ) by push_cast; ring]
          rw [Int.floor_add_int]
  have h2 : Int.floor (b + 1 / 2) ≤ Int.floor (a + 1 / 2) + 1 := by
    have hle : b + 1 / 2 ≤ (a + 1 / 2) + 1 := by linarith
    calc Int.floor (b + 1 / 2) ≤ Int.floor ((a + 1 / 2) + 1) := Int.floor_le_floor hle
      _ = Int.floor (a + 1 / 2) + 1 := by
          rw [show ((a + 1 / 2) + 1 : ℚ) = (a + 1 / 2) + ((1 : ℤ) : ℚ) by push_cast; ring]
          rw [Int.floor_add_int]
  rw [abs_le]
  omega

/-- Rounding the significand to the nearest integer moves it by at most
half. -/
theorem rne_sub_abs_le (x : ℚ) : |(rne x : ℚ) - x| ≤ 1 / 2 := by
  have h0 : (Int.floor x : ℚ) ≤ x := Int.floor_le x
  have h1 : x < Int.floor x + 1 := Int.lt_floor_add_one x
  unfold rne
  split_ifs with ha hb hc <;> rw [abs_le] <;>
    constructor <;> push_cast <;> linarith

/-- Evaluation of `rne` when the fractional part is below one half. -/
theorem rne_eq_floor (x : ℚ) (f : ℤ) (h1 : (f : ℚ) ≤ x) (h2 : x - f < 1 / 2) :
    rne x = f := by
  have hf : Int.floor x = f := by
    rw [Int.floor_eq_iff]
    refine ⟨h1, by linarith⟩
  unfold rne
  rw [hf, if_pos h2]

/-- Characterisation of `Int.log 2` by the enclosing binade. -/
theorem int_log_eq (q : ℚ) (e : ℤ) (hq : 0 < q) (h1 : (2 : ℚ) ^ e ≤ q)
    (h2 : q < (2 : ℚ) ^ (e + 1)) : Int.log 2 q = e := by
  have hcast : ((2 : ℕ) : ℚ) = (2 : ℚ) := by norm_num
  have hle : e ≤ Int.log 2 q := by
    have hz : Int.log 2 (((2 : ℕ) : ℚ) ^ e) = e := Int.log_zpow (by norm_num) e
    have hmono : Int.log 2 (((2 : ℕ) : ℚ) ^ e) ≤ Int.log 2 q := by
      apply Int.log_mono_right
      · rw [hcast]
        exact zpow_pos (by norm_num) e
      · rw [hcast]
        exact h1
    rw [hz] at hmono
    exact hmono
  have hlt : Int.log 2 q < e + 1 := by
    have hlow : ((2 : ℕ) : ℚ) ^ Int.log 2 q ≤ q := Int.zpow_log_le_self (by norm_num) hq
    have hchain : ((2 : ℕ) : ℚ) ^ Int.log 2 q < ((2 : ℕ) : ℚ) ^ (e + 1) := by
      rw [hcast]
      rw [hcast] at hlow
      exact lt_of_le_of_lt hlow h2
    exact (zpow_lt_zpow_iff_right₀ (by rw [hcast]; norm_num)).1 hchain
  omega

theorem floatRound_zero : floatRound 0 = 0 := by
  simp [floatRound]

/-- Relative-error bound of one binary64 rounding: the result moves by at most
an ulp-half, i.e. by at most q / 2^53 for positive q. -/
theorem floatRound_abs_sub_le (q : ℚ) (hq : 0 < q) :
    |floatRound q - q| ≤ q / 9007199254740992 := by
  have habs : |q| = q := abs_of_pos hq
  unfold floatRound
  rw [if_neg (ne_of_gt hq), habs]
  set e : ℤ := Int.log 2 q with he
  set s : ℤ := 52 - e with hs
  have hpow : (0 : ℚ) < 2 ^ s := zpow_pos (by norm_num) s
  have hrw : (rne (q * 2 ^ s) : ℚ) / 2 ^ s - q
      = ((rne (q * 2 ^ s) : ℚ) - q * 2 ^ s) / 2 ^ s := by
    field_simp
    ring
  rw [hrw, abs_div, abs_of_pos hpow]
  have h1 : |(rne (q * 2 ^ s) : ℚ) - q * 2 ^ s| ≤ 1 / 2 := rne_sub_abs_le _
  have h2 : (2 : ℚ) ^ e ≤ q := by
    have hlow := Int.zpow_log_le_self (b := 2) (R := ℚ) (by norm_num) hq
    have hcast : ((2 : ℕ) : ℚ) = (2 : ℚ) := by norm_num
    rw [hcast] at hlow
    rw [he]
    exact hlow
  have hepos : (0 : ℚ) < 2 ^ e := zpow_pos (by norm_num) e
  have hhalf : (1 : ℚ) / 2 / 2 ^ s ≤ q / 9007199254740992 := by
    have hss : (2 : ℚ) ^ s = 2 ^ (52 : ℤ) / 2 ^ e := by
      rw [hs, zpow_sub₀ (by norm_num : (2 : ℚ) ≠ 0)]
    have h52 : (2 : ℚ) ^ (52 : ℤ) = 4503599627370496 := by
      norm_num
    have hne : (2 : ℚ) ^ e ≠ 0 := ne_of_gt hepos
    have hcollapse : (1 : ℚ) / 2 / (4503599627370496 / 2 ^ e)
        = 2 ^ e / 9007199254740992 := by
      rw [div_div_eq_mul_div, one_div, inv_mul_eq_div, div_div]
      norm_num
    rw [hss, h52, hcollapse]
    gcongr
  calc |(rne (q * 2 ^ s) : ℚ) - q * 2 ^ s| / 2 ^ s
      ≤ (1 / 2) / 2 ^ s := by gcongr
    _ ≤ q / 9007199254740992 := hhalf

/-- Core bounds for the two-step double computation `(x)*100` with
`x ∈ [0, 1]`: the result stays within half a unit of the displayable range and
within one unit of the exact value `100·x`. -/
theorem displayFP_core (x : ℚ) (hx0 : 0 ≤ x) (hx1 : x ≤ 1) :
    -(1 / 2) ≤ floatRound (floatRound x * 100) ∧
    floatRound (floatRound x * 100) < 100 + 1 / 2 ∧
    |floatRound (floatRound x * 100) - 100 * x| < 1 := by
  rcases eq_or_lt_of_le hx0 with h | h
  · rw [← h, floatRound_zero, zero_mul, floatRound_zero]
    norm_num
  · have h1 := abs_le.1 (floatRound_abs_sub_le x h)
    set y := floatRound x with hy
    have hyx_l : x - x / 9007199254740992 ≤ y := by linarith [h1.1]
    have hyx_u : y ≤ x + x / 9007199254740992 := by linarith [h1.2]
    have hxN : x / 9007199254740992 ≤ 1 / 9007199254740992 := by
      gcongr
    have hy0 : 0 < y := by linarith
    have h2 := abs_le.1 (floatRound_abs_sub_le (y * 100) (by positivity))
    set z := floatRound (y * 100) with hz
    refine ⟨?_, ?_, ?_⟩
    · linarith [h2.1, h2.2, hy0]
    · linarith [h2.1, h2.2, hyx_l, hyx_u, hxN, hx1, h, hy0]
    · rw [abs_lt]
      constructor
      · linarith [h2.1, h2.2, hyx_l, hyx_u, hxN, hx1, h, hy0]
      · linarith [h2.1, h2.2, hyx_l, hyx_u, hxN, hx1, h, hy0]

/-- The displayed double-computed percentage of `p` hits out of `t > 0` records
is an integer in [0, 100] and within one of the exact rounded ratio. -/
theorem displayFP_props (p t : ℕ) (hpt : p ≤ t) (ht : 0 < t) :
    0 ≤ jsRound (floatRound (floatRound ((p : ℚ) / (t : ℚ)) * 100)) ∧
    jsRound (floatRound (floatRound ((p : ℚ) / (t : ℚ)) * 100)) ≤ 100 ∧
    |jsRound (floatRound (floatRound ((p : ℚ) / (t : ℚ)) * 100)) -
      jsRound (100 * (p : ℚ) / (t : ℚ))| ≤ 1 := by
  have ht' : (0 : ℚ) < (t : ℚ) := by exact_mod_cast ht
  have hx0 : 0 ≤ (p : ℚ) / (t : ℚ) := by positivity
  have hx1 : (p : ℚ) / (t : ℚ) ≤ 1 := by
    rw [div_le_one ht']
    exact_mod_cast hpt
  obtain ⟨hb1, hb2, hb3⟩ := displayFP_core _ hx0 hx1
  refine ⟨jsRound_nonneg hb1, jsRound_le_100 hb2, ?_⟩
  rw [show 100 * (p : ℚ) / (t : ℚ) = 100 * ((p : ℚ) / (t : ℚ)) by ring]
  exact jsRound_abs_diff hb3

/-- C10 fails as stated: at 23 present of 40 records the doubles compute
`(23/40)*100 = 57.49999999999999`, so the program displays `Math.round` of
that, 57, while the exact round(100·23/40) = round(57.5) = 58. -/
theorem claim_C10_counterexample :
    ((List.replicate 23 "present" ++ List.replicate 17 "absent").filter
      fun a => a == "present").length = 23 ∧
    (List.replicate 23 "present" ++ List.replicate 17 "absent").length = 40 ∧
    classAttendancePctFP (List.replicate 23 "present" ++ List.replicate 17 "absent") = 57 ∧
    jsRound (100 * (23 : ℚ) / 40) = 58 := by
  have hfil : ((List.replicate 23 "present" ++ List.replicate 17 "absent").filter
      fun a => a == "present").length = 23 := by decide
  have hlen : (List.replicate 23 "present" ++ List.replicate 17 "absent").length = 40 := by
    decide
  refine ⟨hfil, hlen, ?_, ?_⟩
  · unfold classAttendancePctFP
    rw [hfil, hlen]
    rw [if_pos (by norm_num)]
    rw [show (((23 : ℕ) : ℚ)) = (23 : ℚ) by norm_num,
      show (((40 : ℕ) : ℚ)) = (40 : ℚ) by norm_num]
    have e1 : Int.log 2 |(23 : ℚ) / 40| = -1 := by
      rw [show |(23 : ℚ) / 40| = 23 / 40 from abs_of_pos (by norm_num)]
      apply int_log_eq
      · norm_num
      · rw [show ((2 : ℚ) ^ (-1 : ℤ)) = 1 / 2 by norm_num]
        norm_num
      · rw [show ((-1 : ℤ) + 1) = 0 by ring, zpow_zero]
        norm_num
    have hf1 : floatRound ((23 : ℚ) / 40) = 5179139571476070 / 9007199254740992 := by
      unfold floatRound
      rw [if_neg (by norm_num), e1]
      rw [show ((52 : ℤ) - (-1)) = 53 by norm_num]
      rw [show ((2 : ℚ) ^ (53 : ℤ)) = 9007199254740992 by norm_num]
      rw [show ((23 : ℚ) / 40 * 9007199254740992) = 25895697857380352 / 5 by norm_num]
      rw [rne_eq_floor ((25895697857380352 : ℚ) / 5) 5179139571476070 (by norm_num)
        (by norm_num)]
      norm_num
    rw [hf1]
    rw [show ((5179139571476070 : ℚ) / 9007199254740992 * 100)
        = 517913957147607000 / 9007199254740992 by norm_num]
    have e2 : Int.log 2 |(517913957147607000 : ℚ) / 9007199254740992| = 5 := by
      rw [show |(517913957147607000 : ℚ) / 9007199254740992|
          = 517913957147607000 / 9007199254740992 from abs_of_pos (by norm_num)]
      apply int_log_eq
      · norm_num
      · rw [show ((2 : ℚ) ^ (5 : ℤ)) = 32 by norm_num]
        norm_num
      · rw [show ((5 : ℤ) + 1) = 6 by norm_num,
          show ((2 : ℚ) ^ (6 : ℤ)) = 64 by norm_num]
        norm_num
    have hf2 : floatRound ((517913957147607000 : ℚ) / 9007199254740992)
        = 8092405580431359 / 140737488355328 := by
      unfold floatRound
      rw [if_neg (by norm_num), e2]
      rw [show ((52 : ℤ) - 5) = 47 by norm_num]
      rw [show ((2 : ℚ) ^ (47 : ℤ)) = 140737488355328 by norm_num]
      rw [show ((517913957147607000 : ℚ) / 9007199254740992 * 140737488355328)
          = 64739244643450875 / 8 by norm_num]
      rw [rne_eq_floor ((64739244643450875 : ℚ) / 8) 8092405580431359 (by norm_num)
        (by norm_num)]
      norm_num
    rw [hf2]
    unfold jsRound
    rw [show ((8092405580431359 : ℚ) / 140737488355328 + 1 / 2)
        = 16325548649218046 / 281474976710656 by norm_num]
    rw [Int.floor_eq_iff]
    constructor
    · push_cast
      norm_num
    · push_cast
      norm_num
  · unfold jsRound
    rw [show (100 * (23 : ℚ) / 40 + 1 / 2) = ((58 : ℤ) : ℚ) by push_cast; norm_num]
    exact Int.floor_intCast 58

/-- C10 as amended: per class the displayed percentage is `Math.round` of the
double computation (present/total)*100 when there are records (which can
differ from the exact round(100·present/total), but by at most one) and is
exactly 0 when there are none (the division is guarded), and likewise for the
overall percentage across classes; every computed percentage is an integer in
[0, 100]. -/
theorem claim_C10_amended (statuses : List String)
    (perClass : List (List String)) :
    (statuses.length = 0 → classAttendancePctFP statuses = 0) ∧
    (0 < statuses.length →
      classAttendancePctFP statuses =
        jsRound (floatRound (floatRound
          (((statuses.filter fun a => a == "present").length : ℚ) /
            (statuses.length : ℚ)) * 100))) ∧
    0 ≤ classAttendancePctFP statuses ∧ classAttendancePctFP statuses ≤ 100 ∧
    (0 < statuses.length →
      |classAttendancePctFP statuses -
        jsRound (100 * ((statuses.filter fun a => a == "present").length : ℚ) /
          (statuses.length : ℚ))| ≤ 1) ∧
    ((perClass.map fun l => l.length).sum = 0 → overallAttendancePctFP perClass = 0) ∧
    (0 < (perClass.map fun l => l.length).sum →
      overallAttendancePctFP perClass =
        jsRound (floatRound (floatRound
          (((((perClass.map fun l => (l.filter fun a => a == "present").length).sum : ℕ)) : ℚ) /
            ((((perClass.map fun l => l.length).sum : ℕ)) : ℚ)) * 100))) ∧
    0 ≤ overallAttendancePctFP perClass ∧ overallAttendancePctFP perClass ≤ 100 ∧
    (0 < (perClass.map fun l => l.length).sum →
      |overallAttendancePctFP perClass -
        jsRound (100 *
          ((((perClass.map fun l => (l.filter fun a => a == "present").length).sum : ℕ)) : ℚ) /
          ((((perClass.map fun l => l.length).sum : ℕ)) : ℚ))| ≤ 1) := by
  have hcls : (statuses.filter fun a => a == "present").length ≤ statuses.length :=
    List.length_filter_le _ _
  have hov : (perClass.map fun l => (l.filter fun a => a == "present").length).sum ≤
      (perClass.map fun l => l.length).sum :=
    List.sum_le_sum fun l _ => List.length_filter_le _ l
  refine ⟨?_, ?_, ?_, ?_, ?_, ?_, ?_, ?_, ?_, ?_⟩
  · intro h0
    simp [classAttendancePctFP, h0]
  · intro ht
    unfold classAttendancePctFP
    rw [if_pos ht]
  · by_cases ht : 0 < statuses.length
    · unfold classAttendancePctFP
      rw [if_pos ht]
      exact (displayFP_props _ _ hcls ht).1
    · unfold classAttendancePctFP
      rw [if_neg ht]
  · by_cases ht : 0 < statuses.length
    · unfold classAttendancePctFP
      rw [if_pos ht]
      exact (displayFP_props _ _ hcls ht).2.1
    · unfold classAttendancePctFP
      rw [if_neg ht]
      norm_num
  · intro ht
    unfold classAttendancePctFP
    rw [if_pos ht]
    exact (displayFP_props _ _ hcls ht).2.2
  · intro h0
    simp [overallAttendancePctFP, h0]
  · intro ht
    unfold overallAttendancePctFP
    rw [if_pos ht]
  · by_cases ht : 0 < (perClass.map fun l => l.length).sum
    · unfold overallAttendancePctFP
      rw [if_pos ht]
      exact (displayFP_props _ _ hov ht).1
    · unfold overallAttendancePctFP
      rw [if_neg ht]
  · by_cases ht : 0 < (perClass.map fun l => l.length).sum
    · unfold overallAttendancePctFP
      rw [if_pos ht]
      exact (displayFP_props _ _ hov ht).2.1
    · unfold overallAttendancePctFP
      rw [if_neg ht]
      norm_num
  · intro ht
    unfold overallAttendancePctFP
    rw [if_pos ht]
    exact (displayFP_props _ _ hov ht).2.2

theorem claim_C10_witness :
    classAttendancePctFP [] = 0 ∧
    classAttendancePctFP ["present", "absent"] =
      jsRound (floatRound (floatRound
        (((["present", "absent"].filter fun a => a == "present").length : ℚ) /
          ((["present", "absent"] : List String).length : ℚ)) * 100)) ∧
    0 ≤ overallAttendancePctFP [["present"], []] ∧
    overallAttendancePctFP [["present"], []] ≤ 100 :=
  ⟨(claim_C10_amended [] []).1 rfl,
   (claim_C10_amended ["present", "absent"] []).2.1 (by decide),
   (claim_C10_amended [] [["present"], []]).2.2.2.2.2.2.2.1,
   (claim_C10_amended [] [["present"], []]).2.2.2.2.2.2.2.2.1⟩

end Edua
